import Mathlib

/-!
Shallow embedding of the cdlparser CDL-3 parser (src/cdlparser/cdlparser.py)
and proofs about the claims on its lexical analysis, dimension handling and
data-layout algorithm.  Python values are modelled exactly: machine integers
by `Int` (the decoded values are range-checked before any narrowing cast, so
no wrap-around occurs on the accepted paths), Python floats by their exact
rational values (`ℚ`; IEEE rounding of decoded literals is not modelled - the
payload carries the exact decoded number), Python exceptions by an `Except`
error channel.
-/

deriving instance DecidableEq for Except

namespace CDL

/-- Exceptions observable from the parser.  `syntaxError` and `contentError`
are the two exception classes the module defines; `nameError` and `typeError`
model Python `NameError` / `TypeError` escaping from buggy code paths, and
`otherError` collects the remaining uncaught Python exceptions
(`ZeroDivisionError`, `IndexError`, `ValueError`). -/
inductive CDLError where
  | syntaxError (msg : String)
  | contentError (msg : String)
  | nameError (msg : String)
  | typeError (msg : String)
  | otherError (msg : String)
deriving DecidableEq, Repr

/-- Whether an error is the parser's `CDLSyntaxError`. -/
def CDLError.isSyntax : CDLError → Bool
  | .syntaxError _ => true
  | _ => false

/-- Whether an error is the parser's `CDLContentError`. -/
def CDLError.isContent : CDLError → Bool
  | .contentError _ => true
  | _ => false

/-- The six netCDF-3 element types a variable can have. -/
inductive NCType where
  | byte | char | short | int | float | double
deriving DecidableEq, Repr

/-- The numpy `dtype.char` code of each element type as seen by the code
(`b`, `S` for the char/`S1` dtype, `h`, `i`, `f`, `d`). -/
def NCType.dtypeChar : NCType → Char
  | .byte => 'b'
  | .char => 'S'
  | .short => 'h'
  | .int => 'i'
  | .float => 'f'
  | .double => 'd'

/-- Runtime values flowing through the parser: the typed literal scalars
produced by the tokenizer, Python strings, and Python lists of values (an
attribute value list, or a numpy array of such values). -/
inductive NCValue where
  | byte (n : Int)
  | short (n : Int)
  | int (n : Int)
  | float (q : ℚ)
  | double (q : ℚ)
  | str (s : String)
  | vlist (vs : List NCValue)
deriving Repr

mutual

/-- Decidable structural equality for `NCValue`. -/
def NCValue.beq : NCValue → NCValue → Bool
  | .byte a, .byte b => a == b
  | .short a, .short b => a == b
  | .int a, .int b => a == b
  | .float a, .float b => a == b
  | .double a, .double b => a == b
  | .str a, .str b => a == b
  | .vlist a, .vlist b => NCValue.beqList a b
  | _, _ => false

/-- Pointwise `NCValue.beq` on lists. -/
def NCValue.beqList : List NCValue → List NCValue → Bool
  | [], [] => true
  | a :: as, b :: bs => NCValue.beq a b && NCValue.beqList as bs
  | _, _ => false

end

mutual

theorem NCValue.beq_iff : ∀ a b : NCValue, NCValue.beq a b = true ↔ a = b
  | .byte a, .byte b => by simp [NCValue.beq]
  | .short a, .short b => by simp [NCValue.beq]
  | .int a, .int b => by simp [NCValue.beq]
  | .float a, .float b => by simp [NCValue.beq]
  | .double a, .double b => by simp [NCValue.beq]
  | .str a, .str b => by simp [NCValue.beq]
  | .vlist a, .vlist b => by
      simp only [NCValue.beq, NCValue.vlist.injEq]
      exact NCValue.beqList_iff a b
  | .byte _, .short _ | .byte _, .int _ | .byte _, .float _ | .byte _, .double _
  | .byte _, .str _ | .byte _, .vlist _
  | .short _, .byte _ | .short _, .int _ | .short _, .float _ | .short _, .double _
  | .short _, .str _ | .short _, .vlist _
  | .int _, .byte _ | .int _, .short _ | .int _, .float _ | .int _, .double _
  | .int _, .str _ | .int _, .vlist _
  | .float _, .byte _ | .float _, .short _ | .float _, .int _ | .float _, .double _
  | .float _, .str _ | .float _, .vlist _
  | .double _, .byte _ | .double _, .short _ | .double _, .int _ | .double _, .float _
  | .double _, .str _ | .double _, .vlist _
  | .str _, .byte _ | .str _, .short _ | .str _, .int _ | .str _, .float _
  | .str _, .double _ | .str _, .vlist _
  | .vlist _, .byte _ | .vlist _, .short _ | .vlist _, .int _ | .vlist _, .float _
  | .vlist _, .double _ | .vlist _, .str _ => by simp [NCValue.beq]

theorem NCValue.beqList_iff : ∀ a b : List NCValue, NCValue.beqList a b = true ↔ a = b
  | [], [] => by simp [NCValue.beqList]
  | a :: as, b :: bs => by
      simp only [NCValue.beqList, Bool.and_eq_true, List.cons.injEq]
      exact and_congr (NCValue.beq_iff a b) (NCValue.beqList_iff as bs)
  | [], _ :: _ => by simp [NCValue.beqList]
  | _ :: _, [] => by simp [NCValue.beqList]

end

instance : DecidableEq NCValue := fun a b =>
  decidable_of_iff (NCValue.beq a b = true) (NCValue.beq_iff a b)

/-- Whether a value is a Python list. -/
def NCValue.isVlist : NCValue → Bool
  | .vlist _ => true
  | _ => false

/-! ### Python numbers

The layout code mixes Python `int` and `float` arithmetic; under Python 3 the
`/` operator always produces a `float`.  `PyNum` records the value together
with its `int`/`float` tag, because the tag is observable: repeating a list
`[fv] * n` requires an `int` count and raises `TypeError` on a `float`.
Float values are carried as exact rationals; the quantities the parser
divides are small integers whose exact quotients are representable, so
IEEE-754 rounding never changes any value or comparison reached here. -/

inductive PyNum where
  | pint (n : Int)
  | pfloat (q : ℚ)
deriving DecidableEq, Repr

/-- The numeric value of a Python number. -/
def PyNum.val : PyNum → ℚ
  | .pint n => (n : ℚ)
  | .pfloat q => q

/-- Python 3 true division: always a float; raises `ZeroDivisionError` on a
zero divisor. -/
def pyDiv (a b : PyNum) : Except CDLError PyNum :=
  if b.val = 0 then .error (.otherError "ZeroDivisionError: division by zero")
  else .ok (.pfloat (a.val / b.val))

/-- Python `%`: `a - b * floor(a / b)` (the sign convention Python uses for
both ints and floats); the result is an `int` only when both operands are.
Raises `ZeroDivisionError` on a zero divisor. -/
def pyMod (a b : PyNum) : Except CDLError PyNum :=
  if b.val = 0 then .error (.otherError "ZeroDivisionError: modulo by zero")
  else
    let m : ℚ := a.val - b.val * (⌊a.val / b.val⌋ : ℚ)
    match a, b with
    | .pint _, .pint _ => .ok (.pint ⌊m⌋)
    | _, _ => .ok (.pfloat m)

/-- Python `int()` applied to a number: truncation toward zero. -/
def pyTrunc (q : ℚ) : Int :=
  if 0 ≤ q then ⌊q⌋ else ⌈q⌉

/-! ### Variables, attributes and fill values -/

/-- The slice of a `netCDF4.Variable` handle that the parser reads: name,
element type, the declared dimension names and their current lengths
(`var.dimensions` / `var.shape`, index-aligned), and the variable's
attributes in creation order. -/
structure NCVar where
  name : String
  dtype : NCType
  dimNames : List String
  shape : List Nat
  ncattrs : List (String × NCValue)
deriving DecidableEq, Repr

/-- Number of dimensions (`var.ndim`). -/
def NCVar.ndim (v : NCVar) : Nat := v.shape.length

/-- Total current element count (`var.size`). -/
def NCVar.size (v : NCVar) : Nat := v.shape.prod

/-- Attribute lookup (`var.ncattrs()` membership plus access). -/
def NCVar.getAttr (v : NCVar) (n : String) : Option NCValue :=
  (v.ncattrs.find? (fun p => p.1 = n)).map Prod.snd

/-- Default fill values from the header of the module (`netcdf.h` values).
`NC_FILL_FLOAT` and `NC_FILL_DOUBLE` are both the source literal
9.9692099683868690e+36, whose value as an IEEE float32 and as a float64 is
exactly 15 * 2^119; the payload carries that exact number. -/
def NC_FILL_BYTE : NCValue := .byte (-127)

/-- Default char fill: `np.str_` of the NUL character. -/
def NC_FILL_CHAR : NCValue := .str "\x00"

/-- Default short fill value. -/
def NC_FILL_SHORT : NCValue := .short (-32767)

/-- Default int fill value. -/
def NC_FILL_INT : NCValue := .int (-2147483647)

/-- Default float fill value (exact IEEE value of the source literal). -/
def NC_FILL_FLOAT : NCValue := .float (15 * 2 ^ 119)

/-- Default double fill value (exact IEEE value of the source literal). -/
def NC_FILL_DOUBLE : NCValue := .double (15 * 2 ^ 119)

/-- Translation of `get_default_fill_value(datatype)`: dispatch on the numpy
`dtype.char` code, raising `CDLContentError` on an unrecognised code. -/
def get_default_fill_value (datatype : Char) : Except CDLError NCValue :=
  if datatype = 'b' then .ok NC_FILL_BYTE
  else if datatype = 'S' ∨ datatype = 'U' then .ok NC_FILL_CHAR
  else if datatype = 'h' ∨ datatype = 's' then .ok NC_FILL_SHORT
  else if datatype = 'i' then .ok NC_FILL_INT
  else if datatype = 'f' then .ok NC_FILL_FLOAT
  else if datatype = 'd' then .ok NC_FILL_DOUBLE
  else .error (.contentError "Unrecognised data type")

/-- The fill-value lookup performed by `pad_array`: the variable's
`_FillValue` attribute if set, else its `missing_value` attribute, else the
per-type default. -/
def effective_fill (var : NCVar) : Except CDLError NCValue :=
  match var.getAttr "_FillValue" with
  | some fv => .ok fv
  | none =>
    match var.getAttr "missing_value" with
    | some mv => .ok mv
    | none => get_default_fill_value var.dtype.dtypeChar

/-- Translation of `pad_array(var, varlen, arr)`: look up the effective fill
value and extend the array with `[fv] * (varlen - arrlen)`.  List repetition
requires an `int` count: when `varlen` is a Python float (which Python 3 true
division produces for character variables) the repetition raises
`TypeError`.  A negative `int` count yields the empty list, as in Python. -/
def pad_array (var : NCVar) (varlen : PyNum) (arr : List NCValue) :
    Except CDLError (List NCValue) :=
  match effective_fill var with
  | .error e => .error e
  | .ok fv =>
    match varlen with
    | .pint n => .ok (arr ++ List.replicate (n - (arr.length : Int)).toNat fv)
    | .pfloat _ =>
        .error (.typeError "cannot multiply sequence by non-int of type float")

/-- Result of a fired `const` grammar rule: the value placed on the parse
stack and whether the unable-to-replace warning was logged. -/
structure ConstResult where
  value : NCValue
  warned : Bool
deriving DecidableEq, Repr

/-- Translation of `CDL3Parser.p_const`: a constant whose semantic value is
the fill string `_` is replaced, for a current variable of non-character
dtype, by its `_FillValue` attribute if present and otherwise by the
per-type default fill value (the `missing_value` attribute is not
consulted); for a character-typed current variable, or no current variable,
a warning is logged and the placeholder value is kept verbatim. -/
def p_const (curr_var : Option NCVar) (v : NCValue) : Except CDLError ConstResult :=
  if v = .str "_" then
    match curr_var with
    | some var =>
      if var.dtype ≠ .char then
        match var.getAttr "_FillValue" with
        | some fv => .ok ⟨fv, false⟩
        | none =>
          match get_default_fill_value var.dtype.dtypeChar with
          | .error e => .error e
          | .ok fv => .ok ⟨fv, false⟩
      else .ok ⟨.str "_", true⟩
    | none => .ok ⟨.str "_", true⟩
  else .ok ⟨v, false⟩

/-! ### Dimension declarations -/

/-- The dataset state a dimension declaration reads and writes: the declared
dimensions in order with their current lengths, and the name of the unlimited
(record) dimension if one was declared. -/
structure DimState where
  dims : List (String × Nat)
  recDimname : Option String
deriving DecidableEq, Repr

/-- Whether a dimension name is already declared
(`p[1] in self.ncdataset.dimensions`). -/
def DimState.hasDim (st : DimState) (name : String) : Bool :=
  st.dims.any (fun p => p.1 = name)

/-- The semantic value of the third token of a `dimdecl` production: an
`INT_CONST` (an in-range `np.int32`), a `DOUBLE_CONST` (an `np.float64`,
carried exactly), or the `unlimited` keyword (whose token value is the
string "unlimited", so it is the only string reaching the rule). -/
inductive DimLenSpec where
  | intConst (v : Int)
  | doubleConst (q : ℚ)
  | unlimited
deriving DecidableEq, Repr

/-- Translation of `CDL3Parser.p_dimd`: reject a duplicate dimension name
before the declaration body runs. -/
def p_dimd (st : DimState) (name : String) : Except CDLError String :=
  if st.hasDim name then
    .error (.contentError ("Duplicate declaration for dimension " ++ name))
  else .ok name

/-- Translation of `CDL3Parser.p_dimdecl` (with the embedded `p_dimd`
reduction, which PLY fires first): a string length specifier must be
"unlimited" and is rejected if an unlimited dimension already exists,
registering the dimension with length 0 and recording its name; a numeric
length is truncated by `int()` and must be positive.  On success the
dimension is created in the dataset. -/
def p_dimdecl (st : DimState) (name : String) (spec : DimLenSpec) :
    Except CDLError DimState :=
  match p_dimd st name with
  | .error e => .error e
  | .ok _ =>
    match spec with
    | .unlimited =>
      if st.recDimname.isSome then
        .error (.contentError "Only one UNLIMITED dimension is allowed.")
      else .ok { dims := st.dims ++ [(name, 0)], recDimname := some name }
    | .intConst v =>
      if v ≤ 0 then
        .error (.contentError ("Length of dimension " ++ name ++ " must be positive."))
      else .ok { st with dims := st.dims ++ [(name, v.toNat)] }
    | .doubleConst q =>
      if pyTrunc q ≤ 0 then
        .error (.contentError ("Length of dimension " ++ name ++ " must be positive."))
      else .ok { st with dims := st.dims ++ [(name, (pyTrunc q).toNat)] }

/-! ### Data layout engine -/

/-- The parser context `write_var_data` consults besides the variable: the
record dimension's name (`self.rec_dimname`) and its current length
(`len(self.ncdataset.dimensions[self.rec_dimname])`). -/
structure ParserCtx where
  recDimname : Option String
  recDimLen : Nat
deriving DecidableEq, Repr

/-- Record-variable test: `self.rec_dimname in var.dimensions`
(`None in (...)` is false). -/
def isRecvar (ctx : ParserCtx) (var : NCVar) : Bool :=
  match ctx.recDimname with
  | some n => var.dimNames.contains n
  | none => false

/-- The buffer committed to the dataset sink at the end of a data statement:
either a scalar assignment, or an array of values (numeric case) or of
fixed-width character rows (character case) together with the integer shape
the array library accepted for it. -/
inductive WriteResult where
  | scalar (v : NCValue)
  | numeric (data : List NCValue) (shape : List Int)
  | charArr (data : List (List Char)) (shape : List Int)
deriving DecidableEq, Repr

/-- The integer-conversion numpy applies to a shape sequence on
`nparr.shape = shape`: each entry goes through `operator.index`, which
accepts Python ints and raises `TypeError` on a float entry (`none`). -/
def shapeToInts : List PyNum → Option (List Int)
  | [] => some []
  | .pint n :: rest => (shapeToInts rest).map (fun r => n :: r)
  | .pfloat _ :: _ => none

/-- Text rendering of a value, as numpy applies when building a fixed-width
bytes array from a Python list (`np.array(slist, dtype='S..')`).  Strings
pass through; numbers are stringified - only the integer renderings are
relied on by any property here (the rational rendering of the float payload
is an approximation of Python's decimal rendering, and the nested-list case
never reaches this function in the modelled flows). -/
def pyStrOf : NCValue → String
  | .str s => s
  | .byte n => toString n
  | .short n => toString n
  | .int n => toString n
  | .float q => toString q
  | .double q => toString q
  | .vlist _ => ""

/-- Translation of `str_list_to_char_arr(slist, maxlen)`: encode each value
to a fixed-width row of `maxlen` characters - `np.array(slist, 'S<maxlen>')`
truncates longer strings and `nc4.stringtochar` pads shorter ones with NUL
bytes. -/
def str_list_to_char_arr (slist : List NCValue) (maxlen : Nat) : List (List Char) :=
  slist.map fun v =>
    let s := (pyStrOf v).data
    s.take maxlen ++ List.replicate (maxlen - s.length) '\x00'

/-- Translation of `put_numeric_data(var, arr, reclen)`: the target shape is
the variable's shape with, for a truthy `reclen`, the leading axis replaced
by `len(arr) / reclen` - a Python 3 true-division float.  The reshape
`nparr.shape = shape` first converts the entries with `operator.index`,
raising `TypeError` on the float entry (so every write through the truthy
`reclen` path fails); with integer entries it raises `ValueError` unless
the shape's product equals the element count.  Either exception reaches the
caller, which rewraps it as `CDLContentError`. -/
def put_numeric_data (var : NCVar) (arr : List NCValue) (reclen : PyNum) :
    Except CDLError WriteResult :=
  let shape0 : List PyNum := var.shape.map (fun (n : ℕ) => PyNum.pint (n : ℤ))
  let shape : List PyNum :=
    if reclen.val ≠ 0 then .pfloat ((arr.length : ℚ) / reclen.val) :: shape0.tail
    else shape0
  match shapeToInts shape with
  | none => .error (.typeError "float object cannot be interpreted as an integer")
  | some ints =>
    if ints.prod = (arr.length : ℤ) then .ok (.numeric arr ints)
    else .error (.otherError "ValueError: cannot reshape array")

/-- Translation of `put_char_data(var, arr, reclen)`: pack the values into
rows of width equal to the variable's last dimension length (1 for a
dimensionless variable), then reshape exactly as `put_numeric_data` does
(including the `TypeError` on the float leading entry of the truthy-`reclen`
path); the packed element count is `len(arr) * maxlen`. -/
def put_char_data (var : NCVar) (arr : List NCValue) (reclen : PyNum) :
    Except CDLError WriteResult :=
  let maxlen : Nat := if 0 < var.ndim then var.shape.getLastD 1 else 1
  let nparr := str_list_to_char_arr arr maxlen
  let shape0 : List PyNum := var.shape.map (fun (n : ℕ) => PyNum.pint (n : ℤ))
  let shape : List PyNum :=
    if reclen.val ≠ 0 then .pfloat ((arr.length : ℚ) / reclen.val) :: shape0.tail
    else shape0
  match shapeToInts shape with
  | none => .error (.typeError "float object cannot be interpreted as an integer")
  | some ints =>
    if ints.prod = ((arr.length * maxlen : ℕ) : ℤ) then .ok (.charArr nparr ints)
    else .error (.otherError "ValueError: cannot reshape array")

/-- The expected-length computation at the top of `write_var_data`: the
variable's size, divided (Python 3 true division, so yielding a float) by
the last dimension length for a character variable with dimensions. -/
def charAdjustedLen (var : NCVar) : Except CDLError PyNum :=
  if var.dtype = NCType.char ∧ 0 < var.ndim then
    pyDiv (.pint (var.size : Int)) (.pint ((var.shape.getLastD 1 : ℕ) : Int))
  else .ok (.pint (var.size : Int))

/-- The record-variable branch of `write_var_data`: if the record dimension
already has a positive length, `reclen = varlen / rec_dimlen`; if it is
still zero, the variable length is inferred as the supplied array length and
`reclen` is 1, or for a multi-dimensional variable the product of the
positive entries of its shape (`reduce` of an empty sequence raises
`TypeError`). -/
def recvarLengths (recDimLen : Nat) (varlen : PyNum) (arrlen : Nat) (var : NCVar) :
    Except CDLError (PyNum × PyNum) :=
  if 0 < recDimLen then
    match pyDiv varlen (.pint (recDimLen : Int)) with
    | .error e => .error e
    | .ok r => .ok (varlen, r)
  else
    if 1 < var.ndim then
      match var.shape.filter (fun x => decide (0 < x)) with
      | [] => .error (.typeError "reduce of empty sequence with no initial value")
      | x :: xs =>
        .ok (.pint (arrlen : Int), .pint ((List.prod (x :: xs) : ℕ) : Int))
    else .ok (.pint (arrlen : Int), .pint 1)

/-- The record-length factor check: fail with `CDLContentError` unless
`varlen % reclen == 0`. -/
def recFactorCheck (varlen reclen : PyNum) : Except CDLError Unit :=
  match pyMod varlen reclen with
  | .error e => .error e
  | .ok m =>
    if m.val ≠ 0 then
      .error (.contentError "Record length is not a factor of variable length")
    else .ok ()

/-- Translation of `CDL3Parser.write_var_data(var, arr)`.  A scalar variable
commits its first supplied value and ignores the rest (an empty list raises
`IndexError`, reported as `CDLContentError`).  Otherwise: compute the
expected length, the record lengths for a record variable with the factor
check, pad with fill values when too few literals were supplied (this call
is outside the try/except, so its exceptions propagate unwrapped), and
commit through `put_char_data` / `put_numeric_data`, whose exceptions are
reported as `CDLContentError`. -/
def write_var_data (ctx : ParserCtx) (var : NCVar) (arr : List NCValue) :
    Except CDLError WriteResult :=
  if var.ndim = 0 then
    match arr with
    | [] =>
      .error (.contentError
        ("Error attempting to assign data value to scalar variable " ++ var.name))
    | v :: _ => .ok (.scalar v)
  else
    match charAdjustedLen var with
    | .error e => .error e
    | .ok varlen1 =>
      match (if isRecvar ctx var then
               recvarLengths ctx.recDimLen varlen1 arr.length var
             else .ok (varlen1, PyNum.pint 0)) with
      | .error e => .error e
      | .ok (varlen2, reclen) =>
        match (if isRecvar ctx var then recFactorCheck varlen2 reclen else .ok ()) with
        | .error e => .error e
        | .ok _ =>
          match (if (arr.length : ℚ) < varlen2.val then pad_array var varlen2 arr
                 else .ok arr) with
          | .error e => .error e
          | .ok arr2 =>
            match (if var.dtype = NCType.char then put_char_data var arr2 reclen
                   else put_numeric_data var arr2 reclen) with
            | .error _ =>
              .error (.contentError
                ("Error attempting to write data array for variable " ++ var.name))
            | .ok r => .ok r

/-! ### Tokenizer: literal decoding

Each `t_XXX_CONST` lexer method receives a token text that matched the
rule's regular expression and decodes it with Python's `float` / `int` /
`eval` builtins.  The decoders below model those builtins on the texts the
shapes can produce, returning `none` where Python raises. -/

/-- Whether a character is an ASCII decimal digit. -/
def isDig (c : Char) : Bool := '0' ≤ c ∧ c ≤ '9'

/-- Whether a character is an ASCII hexadecimal digit. -/
def isHexDig (c : Char) : Bool :=
  isDig c ∨ ('a' ≤ c ∧ c ≤ 'f') ∨ ('A' ≤ c ∧ c ≤ 'F')

/-- Whether a character is an octal digit. -/
def isOctDig (c : Char) : Bool := '0' ≤ c ∧ c ≤ '7'

/-- Value of a decimal digit string. -/
def digitsVal (cs : List Char) : Nat :=
  cs.foldl (fun a c => a * 10 + (c.toNat - 48)) 0

/-- Value of one hexadecimal digit. -/
def hexDigVal (c : Char) : Nat :=
  if isDig c then c.toNat - 48
  else if 'a' ≤ c ∧ c ≤ 'f' then c.toNat - 87
  else c.toNat - 55

/-- Value of a hexadecimal digit string. -/
def hexVal (cs : List Char) : Nat :=
  cs.foldl (fun a c => a * 16 + hexDigVal c) 0

/-- Split an optional leading sign from a character list, returning the sign
as an integer. -/
def splitSign : List Char → Int × List Char
  | '-' :: rest => (-1, rest)
  | '+' :: rest => (1, rest)
  | cs => (1, cs)

/-- Longest digit prefix and the remainder. -/
def spanDigits : List Char → List Char × List Char
  | [] => ([], [])
  | c :: rest =>
    if isDig c then
      let (d, r) := spanDigits rest
      (c :: d, r)
    else ([], c :: rest)

/-- Model of Python `int(s)` on a string: an optional sign followed by one or
more decimal digits (leading zeros permitted); anything else raises
`ValueError`. -/
def pyIntStr (s : String) : Option Int :=
  let (sg, body) := splitSign s.data
  if body ≠ [] ∧ body.all isDig then some (sg * (digitsVal body : Int)) else none

/-- Model of Python `eval(s)` on the integer-literal texts reachable from the
lexer's shapes: an optional sign followed by a hexadecimal literal `0x...`,
a plain decimal literal, or a run of zeros.  A decimal literal with a
leading zero and a nonzero digit (e.g. "0777", "007") is a Python 3
`SyntaxError`, modelled as `none`; so is a text that is no integer literal
at all (e.g. "0ff"). -/
def pyEvalInt (s : String) : Option Int :=
  let (sg, body) := splitSign s.data
  match body with
  | '0' :: x :: hs =>
    if (x = 'x' ∨ x = 'X') ∧ hs ≠ [] ∧ hs.all isHexDig then
      some (sg * (hexVal hs : Int))
    else if (x :: hs).all isDig then
      if (x :: hs).all (fun c => c = '0') then some 0 else none
    else none
  | ['0'] => some 0
  | c :: cs =>
    if isDig c ∧ c ≠ '0' ∧ cs.all isDig then some (sg * (digitsVal (c :: cs) : Int))
    else none
  | [] => none

/-- Consume an exponent part `[eE][+-]?[0-9]+` from the front of a character
list, returning its integer value and the remainder; `none` if the list does
not start with a well-formed exponent. -/
def takeExp : List Char → Option (Int × List Char)
  | e :: rest =>
    if e = 'e' ∨ e = 'E' then
      let (sg, body) := splitSign rest
      let (ds, r) := spanDigits body
      if ds ≠ [] then some (sg * (digitsVal ds : Int), r) else none
    else none
  | [] => none

/-- Model of Python `float(s)` on the texts reachable from the float/double
shapes: optional sign, integer digits, optional fraction, optional exponent,
with at least one mantissa digit required; the value is returned exactly as
a rational.  A bare "." or an exponent with no mantissa digits raises
`ValueError`, modelled as `none`. -/
def pyFloat (s : String) : Option ℚ :=
  let (sg, body) := splitSign s.data
  let (ip, r1) := spanDigits body
  let (fp, r2) :=
    match r1 with
    | '.' :: r => spanDigits r
    | _ => ([], r1)
  if ip = [] ∧ fp = [] then none
  else
    let mant : ℚ := (digitsVal ip : ℚ) + (digitsVal fp : ℚ) / (10 : ℚ) ^ fp.length
    match r2 with
    | [] => some ((sg : ℚ) * mant)
    | cs =>
      match takeExp cs with
      | some (e, []) => some ((sg : ℚ) * mant * (10 : ℚ) ^ e)
      | _ => none

/-! ### Tokenizer: lexical shapes

Executable versions of the token regular expressions (full-match of a token
text), used to state that a text really lexes as the given literal class. -/

/-- Shape `[+-]?([0-9]+|0[xX][0-9a-fA-F]+)[sS]` of `t_SHORT_CONST`. -/
def matchesShortConst (s : String) : Bool :=
  match s.data.getLast? with
  | some c =>
    (c == 's' || c == 'S') &&
      (let body := (splitSign s.data.dropLast).2
       (!body.isEmpty && body.all isDig) ||
         (match body with
          | '0' :: x :: hs => (x == 'x' || x == 'X') && !hs.isEmpty && hs.all isHexDig
          | _ => false))
  | none => false

/-- Shape of `byte_const`: a signed decimal with `b`/`B` suffix, or a quoted
character, escape, octal escape or hex escape. -/
def matchesByteConst (s : String) : Bool :=
  (match s.data.getLast? with
   | some c =>
     (c == 'b' || c == 'B') &&
       (let body := (splitSign s.data.dropLast).2
        !body.isEmpty && body.all isDig)
   | none => false) ||
  (match s.data with
   | ['\'', c, '\''] => c != '\\'
   | ['\'', '\\', _, '\''] => true
   | ['\'', '\\', d1, d2, '\''] =>
     (isOctDig d1 && isOctDig d2) || ((d1 == 'x' || d1 == 'X') && isHexDig d2)
   | ['\'', '\\', d1, d2, d3, '\''] =>
     (isOctDig d1 && isOctDig d2 && isOctDig d3) ||
       ((d1 == 'x' || d1 == 'X') && isHexDig d2 && isHexDig d3)
   | _ => false)

/-- Shape `[+-]?([1-9][0-9]*|0[xX]?[0-9a-fA-F]+|0)` of `t_INT_CONST`. -/
def matchesIntConst (s : String) : Bool :=
  match (splitSign s.data).2 with
  | '0' :: rest =>
    (match rest with
     | [] => true
     | x :: hs =>
       if x == 'x' || x == 'X' then !hs.isEmpty && hs.all isHexDig
       else (x :: hs).all isHexDig)
  | c :: cs => isDig c && c != '0' && cs.all isDig
  | [] => false

/-- Match an optional exponent: consume `[eE][+-]?[0-9]+` if it is present
and well formed, else leave the input unchanged. -/
def chewExpOpt (cs : List Char) : List Char :=
  match takeExp cs with
  | some (_, r) => r
  | none => cs

/-- Shape of `float_const`:
`[+-]?[0-9]*[.][0-9]*exp?[Ff] | [+-]?[0-9]*exp[Ff]`. -/
def matchesFloatConst (s : String) : Bool :=
  let body := (splitSign s.data).2
  let (_, r1) := spanDigits body
  (match r1 with
   | '.' :: r =>
     let (_, r3) := spanDigits r
     (chewExpOpt r3 == ['f'] || chewExpOpt r3 == ['F'])
   | _ => false) ||
  (match takeExp r1 with
   | some (_, r) => r == ['f'] || r == ['F']
   | none => false)

/-- Shape of `double_const`:
`[+-]?[0-9]*[.][0-9]*exp?[Dd]? | [+-]?[0-9]*exp[Dd]?`. -/
def matchesDoubleConst (s : String) : Bool :=
  let body := (splitSign s.data).2
  let (_, r1) := spanDigits body
  (match r1 with
   | '.' :: r =>
     let (_, r3) := spanDigits r
     (chewExpOpt r3 == [] || chewExpOpt r3 == ['d'] || chewExpOpt r3 == ['D'])
   | _ => false) ||
  (match takeExp r1 with
   | some (_, r) => r == [] || r == ['d'] || r == ['D']
   | none => false)

/-! ### Tokenizer: the literal token handlers -/

/-- The token text without its final character (`t.value[:-1]`). -/
def dropSuffix1 (s : String) : String := String.mk s.data.dropLast

/-- Translation of `t_FLOAT_CONST`: strip the `f`/`F` suffix and decode with
`float()`; a decode failure raises `CDLContentError`.  The decoded value is
kept exact (the `np.float32` narrowing of the payload is not modelled). -/
def t_FLOAT_CONST (s : String) : Except CDLError NCValue :=
  match pyFloat (dropSuffix1 s) with
  | none => .error (.contentError ("Bad float constant: " ++ s))
  | some q => .ok (.float q)

/-- The text `float()` receives in `t_DOUBLE_CONST`: the token text with a
`d`/`D` suffix stripped when present. -/
def doubleConstText (s : String) : String :=
  match s.data.getLast? with
  | some c => if c = 'd' ∨ c = 'D' then dropSuffix1 s else s
  | none => s

/-- Translation of `t_DOUBLE_CONST`: strip a `d`/`D` suffix when present and
decode with `float()`; a decode failure raises `CDLContentError`. -/
def t_DOUBLE_CONST (s : String) : Except CDLError NCValue :=
  match pyFloat (doubleConstText s) with
  | none => .error (.contentError ("Bad double constant: " ++ s))
  | some q => .ok (.double q)

/-- Translation of `t_SHORT_CONST`: strip the `s`/`S` suffix, decode with
`int(eval(...))`, and range-check against [-32768, 32767]; the in-range
value becomes an `np.int16`. -/
def t_SHORT_CONST (s : String) : Except CDLError NCValue :=
  match pyEvalInt (dropSuffix1 s) with
  | none => .error (.contentError ("Bad short constant: " ++ s))
  | some v =>
    if v < -32768 ∨ v > 32767 then
      .error (.contentError
        ("Short constant is outside valid range (-32768 -> 32767): " ++ toString v))
    else .ok (.short v)

/-- Model of `ord(eval(t.value))` on the quoted byte-constant forms: a plain
quoted character yields its code point (a quote character inside quotes is a
Python `SyntaxError`); a backslash escape yields the escaped character's
code, with octal (1-3 digits) and hex (exactly two digits - Python rejects a
truncated `\x` escape) forms; an unrecognised escape leaves a two-character
string on which `ord` raises `TypeError`.  All failure modes are `none`. -/
def pyEvalCharOrd (s : String) : Option Int :=
  match s.data with
  | ['\'', c, '\''] =>
    if c = '\\' ∨ c = '\'' then none else some (c.toNat : Int)
  | ['\'', '\\', c, '\''] =>
    if c = 'n' then some 10
    else if c = 't' then some 9
    else if c = 'r' then some 13
    else if c = 'b' then some 8
    else if c = 'f' then some 12
    else if c = 'a' then some 7
    else if c = 'v' then some 11
    else if c = '\\' then some 92
    else if c = '\'' then some 39
    else if c = '"' then some 34
    else if isOctDig c then some ((c.toNat - 48 : ℕ) : Int)
    else none
  | ['\'', '\\', d1, d2, '\''] =>
    if isOctDig d1 ∧ isOctDig d2 then
      some (((d1.toNat - 48) * 8 + (d2.toNat - 48) : ℕ) : Int)
    else none
  | ['\'', '\\', x, h1, h2, '\''] =>
    if x = 'x' ∧ isHexDig h1 ∧ isHexDig h2 then
      some ((hexDigVal h1 * 16 + hexDigVal h2 : ℕ) : Int)
    else if isOctDig x ∧ isOctDig h1 ∧ isOctDig h2 then
      some (((x.toNat - 48) * 64 + (h1.toNat - 48) * 8 + (h2.toNat - 48) : ℕ) : Int)
    else none
  | _ => none

/-- The byte-constant decoding step of `t_BYTE_CONST`: a quoted form goes
through `ord(eval(...))`, a suffixed decimal through `int(t.value[:-1])`. -/
def byteDecode (s : String) : Option Int :=
  if s.data.head? = some '\'' then pyEvalCharOrd s
  else pyIntStr (dropSuffix1 s)

/-- Translation of `t_BYTE_CONST`: a quoted form decodes through
`ord(eval(...))`, a suffixed decimal through `int(t.value[:-1])`; decode
failures raise `CDLContentError`, and the decoded value is range-checked
against [-128, 127] before the `np.int8` cast. -/
def t_BYTE_CONST (s : String) : Except CDLError NCValue :=
  match byteDecode s with
  | none => .error (.contentError ("Bad byte constant: " ++ s))
  | some v =>
    if v < -128 ∨ v > 127 then
      .error (.contentError
        ("Byte constant outside valid range (-128 -> 127): " ++ toString v))
    else .ok (.byte v)

/-- Translation of `t_INT_CONST`: decode with `int(eval(...))` and
range-check against [-2147483648, 2147483647].  On the out-of-range path the
source formats its error message with the name `int_val`, which is never
assigned in that method, so Python raises `NameError` instead of the
intended `CDLContentError`. -/
def t_INT_CONST (s : String) : Except CDLError NCValue :=
  match pyEvalInt s with
  | none => .error (.contentError ("Bad integer constant: " ++ s))
  | some v =>
    if v < -2147483648 ∨ v > 2147483647 then
      .error (.nameError "name int_val is not defined")
    else .ok (.int v)

/-! ### Attribute declarations -/

/-- The dataset state `set_attribute` reads and writes: the global
attributes and the declared variables (each carrying its own attributes). -/
structure NCDataset where
  ncattrs : List (String × NCValue)
  vars : List NCVar
deriving Repr

/-- Variable lookup by name (`self.ncdataset.variables[varname]`). -/
def NCDataset.findVar (ds : NCDataset) (n : String) : Option NCVar :=
  ds.vars.find? (fun v => v.name = n)

/-- Append an attribute to the named variable. -/
def NCDataset.setVarAttr (ds : NCDataset) (n attname : String) (v : NCValue) :
    NCDataset :=
  { ds with
    vars := ds.vars.map fun w =>
      if w.name = n then { w with ncattrs := w.ncattrs ++ [(attname, v)] } else w }

/-- The scalarisation at the top of `set_attribute`: a one-element value
list is stored as its bare element, any other list as the list itself. -/
def attScalarize (attvallist : List NCValue) : NCValue :=
  match attvallist with
  | [v] => v
  | vs => .vlist vs

/-- Model of the numpy scalar-constructor cast `var.dtype.type(v)` applied
to a `_FillValue` attribute value.  Integer targets parse strings with
`int()`, truncate fractional values toward zero and wrap to the target
width; float targets parse strings with `float()` and otherwise keep the
exact numeric value (IEEE rounding is not modelled); the character target
keeps text as bytes.  A list input builds an array, i.e. casts elementwise.
Inputs numpy rejects (e.g. an unparsable string) are `none`. -/
def npCastVal (t : NCType) (v : NCValue) : Option NCValue :=
  let toI : Int → Nat → Option Int := fun n w =>
    some ((n + 2 ^ (w - 1)) % 2 ^ w - 2 ^ (w - 1))
  let asInt : NCValue → Option Int := fun v =>
    match v with
    | .byte n => some n
    | .short n => some n
    | .int n => some n
    | .float q => some (pyTrunc q)
    | .double q => some (pyTrunc q)
    | .str s => pyIntStr s
    | .vlist _ => none
  let asRat : NCValue → Option ℚ := fun v =>
    match v with
    | .byte n => some n
    | .short n => some n
    | .int n => some n
    | .float q => some q
    | .double q => some q
    | .str s => pyFloat s
    | .vlist _ => none
  match t, v with
  | _, .vlist vs =>
    match vs.mapM (npCastValScalar t) with
    | some ws => some (.vlist ws)
    | none => none
  | .byte, w => (asInt w).bind fun n => (toI n 8).map .byte
  | .short, w => (asInt w).bind fun n => (toI n 16).map .short
  | .int, w => (asInt w).bind fun n => (toI n 32).map .int
  | .float, w => (asRat w).map .float
  | .double, w => (asRat w).map .double
  | .char, .str s => some (.str s)
  | .char, _ => none
where
  /-- Elementwise cast for the list case (no nested lists). -/
  npCastValScalar (t : NCType) (v : NCValue) : Option NCValue :=
    match t, v with
    | _, .vlist _ => none
    | .byte, w => ((match w with
        | .byte n => some n | .short n => some n | .int n => some n
        | .float q => some (pyTrunc q) | .double q => some (pyTrunc q)
        | .str s => pyIntStr s | .vlist _ => none).bind fun n =>
          some (NCValue.byte ((n + 2 ^ 7) % 2 ^ 8 - 2 ^ 7)))
    | .short, w => ((match w with
        | .byte n => some n | .short n => some n | .int n => some n
        | .float q => some (pyTrunc q) | .double q => some (pyTrunc q)
        | .str s => pyIntStr s | .vlist _ => none).bind fun n =>
          some (NCValue.short ((n + 2 ^ 15) % 2 ^ 16 - 2 ^ 15)))
    | .int, w => ((match w with
        | .byte n => some n | .short n => some n | .int n => some n
        | .float q => some (pyTrunc q) | .double q => some (pyTrunc q)
        | .str s => pyIntStr s | .vlist _ => none).bind fun n =>
          some (NCValue.int ((n + 2 ^ 31) % 2 ^ 32 - 2 ^ 31)))
    | .float, w => (match w with
        | .byte n => some ((n : ℚ)) | .short n => some ((n : ℚ)) | .int n => some ((n : ℚ))
        | .float q => some q | .double q => some q
        | .str s => pyFloat s | .vlist _ => none).map .float
    | .double, w => (match w with
        | .byte n => some ((n : ℚ)) | .short n => some ((n : ℚ)) | .int n => some ((n : ℚ))
        | .float q => some q | .double q => some q
        | .str s => pyFloat s | .vlist _ => none).map .double
    | .char, .str s => some (.str s)
    | .char, _ => none

/-- Python `attid.split(':')`: split the characters on every colon. -/
def splitOnColon : List Char → List (List Char)
  | [] => [[]]
  | c :: rest =>
    if c = ':' then [] :: splitOnColon rest
    else
      match splitOnColon rest with
      | h :: t => (c :: h) :: t
      | [] => [[c]]

/-- Translation of `CDL3Parser.set_attribute(attid, attvallist)`.  A
one-element value list is stored as its bare element.  An `attid` beginning
with a colon is a global attribute: a duplicate name raises
`CDLContentError`, otherwise the attribute is appended to the dataset.
Otherwise the whole variable-scope path runs inside a try/except whose bare
handler replaces every failure - a malformed `attid` (not exactly
`var:name`), an unknown variable, a duplicate attribute name (the inner
`CDLContentError` is itself caught), or a `_FillValue` coercion error - with
`CDLContentError` about an invalid attribute name specification. -/
def set_attribute (ds : NCDataset) (attid : String) (attvallist : List NCValue) :
    Except CDLError NCDataset :=
  let attval := attScalarize attvallist
  match attid.data with
  | ':' :: rest =>
    let gname := String.mk rest
    if ds.ncattrs.any (fun p => p.1 = gname) then
      .error (.contentError ("Duplicate global attribute: " ++ attid))
    else .ok { ds with ncattrs := ds.ncattrs ++ [(gname, attval)] }
  | _ =>
    let invalid : Except CDLError NCDataset :=
      .error (.contentError ("Invalid attribute name specification: " ++ attid))
    match (splitOnColon attid.data).map String.mk with
    | [varname, attname] =>
      match ds.findVar varname with
      | none => invalid
      | some var =>
        if var.ncattrs.any (fun p => p.1 = attname) then invalid
        else
          match (if attname = "_FillValue" then npCastVal var.dtype attval
                 else some attval) with
          | none => invalid
          | some attval2 => .ok (ds.setVarAttr varname attname attval2)
    | _ => invalid

/-! ### Tokenizer: scanning loop and error recovery

PLY's `token()` repeatedly matches the rule set at the current position.  A
matched rule's handler either returns a token, returns nothing (comments and
newlines, which continue the scan), or raises; when no rule matches, the
`t_error` handler logs a warning and skips one character, and the scan
continues.  The rule set itself is a configuration of regular expressions,
so the driver below is parametric in the matching function and concrete in
the handlers. -/

/-- The lexer state: input characters, current position, current line
number, and the number of warnings logged so far. -/
structure LexState where
  input : List Char
  pos : Nat
  lineno : Nat
  warnings : Nat
deriving DecidableEq, Repr

/-- Translation of `t_error(t)`: log a warning about the illegal character
and `t.lexer.skip(1)`. -/
def t_error (st : LexState) : LexState :=
  { st with pos := st.pos + 1, warnings := st.warnings + 1 }

/-- A token delivered to the grammar engine: its PLY type name, its semantic
value and the line it started on. -/
structure NCToken where
  kind : String
  value : NCValue
  lineno : Nat
deriving DecidableEq, Repr

/-- A rule match at the current position: which lexer rule matched and the
matched text (for `t_newline`, the number of newline characters). -/
inductive MatchedRule where
  | netcdfTok (text : String)
  | sectionTok (text : String)
  | termstringTok (text : String)
  | commentTok (text : String)
  | identTok (text : String)
  | floatTok (text : String)
  | doubleTok (text : String)
  | shortTok (text : String)
  | byteTok (text : String)
  | intTok (text : String)
  | newlineTok (n : Nat)
  | simpleTok (kind : String) (text : String)
deriving DecidableEq, Repr

/-- Translation of `deescapify(name)` (the netCDF-name de-escaping pass):
delete each lone backslash and collapse a double backslash; a name ending in
a lone backslash makes the source read past the end of the string
(`IndexError`), modelled as `none`. -/
def deescapify : List Char → Option (List Char)
  | [] => some []
  | ['\\'] => none
  | '\\' :: '\\' :: rest => (deescapify rest).map (fun r => '\\' :: r)
  | '\\' :: c :: rest => deescapify (c :: rest)
  | c :: rest => (deescapify rest).map (fun r => c :: r)

/-- Whether a character is Python `str.split` whitespace (the forms that can
appear in a matched `netcdf` opening). -/
def isPyWs (c : Char) : Bool :=
  c = ' ' ∨ c = '\t' ∨ c = '\n' ∨ c = '\r' ∨ c = '\x0c'

/-- Python `s.split()`: split on runs of whitespace, dropping empty parts. -/
def pySplitWs (s : String) : List String :=
  ((s.data.splitOnP isPyWs).filter (fun l => ¬l.isEmpty)).map String.mk

/-- Translation of `t_NETCDF`: split the matched opening on whitespace; a
missing dataset name raises `CDLSyntaxError`, otherwise the name is
de-escaped and becomes the token value. -/
def t_NETCDF (text : String) : Except CDLError NCValue :=
  match pySplitWs text with
  | _ :: name :: _ =>
    match deescapify name.data with
    | some n => .ok (.str (String.mk n))
    | none => .error (.otherError "IndexError: string index out of range")
  | _ => .error (.syntaxError "A netCDF name is required")

/-- Python string escapes as decoded by `unicode-escape` (used by
`expand_escapes` for `TERMSTRING` tokens): standard single-character
escapes, octal (1-3 digits) and hex (exactly 2 digits) forms; an
unrecognised escape keeps both characters; a truncated hex escape raises
`ValueError` (`none`).  The `\\N` named-escape form is modelled as a failure
(it cannot appear in a sensible CDL string). -/
def expandEscapeList : List Char → Option (List Char)
  | [] => some []
  | ['\\'] => none
  | '\\' :: c :: rest =>
    if c = 'n' then (expandEscapeList rest).map (fun r => '\n' :: r)
    else if c = 't' then (expandEscapeList rest).map (fun r => '\t' :: r)
    else if c = 'r' then (expandEscapeList rest).map (fun r => '\r' :: r)
    else if c = 'b' then (expandEscapeList rest).map (fun r => '\x08' :: r)
    else if c = 'f' then (expandEscapeList rest).map (fun r => '\x0c' :: r)
    else if c = 'a' then (expandEscapeList rest).map (fun r => '\x07' :: r)
    else if c = 'v' then (expandEscapeList rest).map (fun r => '\x0b' :: r)
    else if c = '\\' then (expandEscapeList rest).map (fun r => '\\' :: r)
    else if c = '\'' then (expandEscapeList rest).map (fun r => '\'' :: r)
    else if c = '"' then (expandEscapeList rest).map (fun r => '"' :: r)
    else if c = 'x' then
      match rest with
      | h1 :: h2 :: r2 =>
        if isHexDig h1 ∧ isHexDig h2 then
          (expandEscapeList r2).map
            (fun r => Char.ofNat (hexDigVal h1 * 16 + hexDigVal h2) :: r)
        else none
      | _ => none
    else if isOctDig c then
      match rest with
      | d2 :: d3 :: r2 =>
        if isOctDig d2 ∧ isOctDig d3 then
          (expandEscapeList r2).map
            (fun r =>
              Char.ofNat ((c.toNat - 48) * 64 + (d2.toNat - 48) * 8 + (d3.toNat - 48)) :: r)
        else if isOctDig d2 then
          (expandEscapeList (d3 :: r2)).map
            (fun r => Char.ofNat ((c.toNat - 48) * 8 + (d2.toNat - 48)) :: r)
        else (expandEscapeList (d2 :: d3 :: r2)).map
            (fun r => Char.ofNat (c.toNat - 48) :: r)
      | [d2] =>
        if isOctDig d2 then
          some [Char.ofNat ((c.toNat - 48) * 8 + (d2.toNat - 48))]
        else (expandEscapeList [d2]).map (fun r => Char.ofNat (c.toNat - 48) :: r)
      | [] => some [Char.ofNat (c.toNat - 48)]
    else if c = 'N' ∨ c = 'u' ∨ c = 'U' then none
    else (expandEscapeList rest).map (fun r => '\\' :: c :: r)
  | c :: rest => (expandEscapeList rest).map (fun r => c :: r)

/-- Translation of `t_TERMSTRING`: expand escapes in the matched text, then
strip a leading and a trailing double quote. -/
def t_TERMSTRING (text : String) : Except CDLError NCValue :=
  match expandEscapeList text.data with
  | none => .error (.otherError "ValueError: invalid escape sequence")
  | some cs =>
    let cs1 := match cs with
               | '"' :: r => r
               | r => r
    let cs2 := match cs1.getLast? with
               | some '"' => cs1.dropLast
               | _ => cs1
    .ok (.str (String.mk cs2))

/-- The reserved-word table of `CDL3Parser` (lower-cased name to token
type). -/
def reserved_words : List (String × String) :=
  [("byte", "BYTE_K"), ("char", "CHAR_K"), ("short", "SHORT_K"),
   ("int", "INT_K"), ("integer", "INT_K"), ("long", "INT_K"),
   ("float", "FLOAT_K"), ("real", "FLOAT_K"), ("double", "DOUBLE_K"),
   ("unlimited", "NC_UNLIMITED_K")]

/-- Translation of `t_IDENT`: the fill string becomes a `FILLVALUE` token, a
reserved word (case-insensitively) becomes its keyword token with lower-cased
value, anything else is a generic identifier. -/
def t_IDENT (text : String) : String × NCValue :=
  if text = "_" then ("FILLVALUE", .str text)
  else
    match reserved_words.find? (fun p => p.1 = text.toLower) with
    | some p => (p.2, .str text.toLower)
    | none => ("IDENT", .str text)

/-- Outcome of one step of the scanning loop. -/
inductive LexOutcome where
  | emit (t : NCToken) (st : LexState)
  | cont (st : LexState)
  | fatal (e : CDLError)
  | eof
deriving DecidableEq, Repr

/-- Advance the state over a matched text. -/
def LexState.advanceBy (st : LexState) (n : Nat) : LexState :=
  { st with pos := st.pos + n }

/-- Apply the handler of a matched rule: produce a token, continue silently
(comments, newlines), or fail with the handler's exception.  No handler
skips input with a warning - that is the `t_error` path alone. -/
def applyRule (r : MatchedRule) (st : LexState) : LexOutcome :=
  match r with
  | .netcdfTok text =>
    match t_NETCDF text with
    | .ok v => .emit ⟨"NETCDF", v, st.lineno⟩ (st.advanceBy text.length)
    | .error e => .fatal e
  | .sectionTok text =>
    .emit ⟨(dropSuffix1 text).toUpper, .str text, st.lineno⟩ (st.advanceBy text.length)
  | .termstringTok text =>
    match t_TERMSTRING text with
    | .ok v => .emit ⟨"TERMSTRING", v, st.lineno⟩ (st.advanceBy text.length)
    | .error e => .fatal e
  | .commentTok text => .cont (st.advanceBy text.length)
  | .identTok text =>
    let (k, v) := t_IDENT text
    .emit ⟨k, v, st.lineno⟩ (st.advanceBy text.length)
  | .floatTok text =>
    match t_FLOAT_CONST text with
    | .ok v => .emit ⟨"FLOAT_CONST", v, st.lineno⟩ (st.advanceBy text.length)
    | .error e => .fatal e
  | .doubleTok text =>
    match t_DOUBLE_CONST text with
    | .ok v => .emit ⟨"DOUBLE_CONST", v, st.lineno⟩ (st.advanceBy text.length)
    | .error e => .fatal e
  | .shortTok text =>
    match t_SHORT_CONST text with
    | .ok v => .emit ⟨"SHORT_CONST", v, st.lineno⟩ (st.advanceBy text.length)
    | .error e => .fatal e
  | .byteTok text =>
    match t_BYTE_CONST text with
    | .ok v => .emit ⟨"BYTE_CONST", v, st.lineno⟩ (st.advanceBy text.length)
    | .error e => .fatal e
  | .intTok text =>
    match t_INT_CONST text with
    | .ok v => .emit ⟨"INT_CONST", v, st.lineno⟩ (st.advanceBy text.length)
    | .error e => .fatal e
  | .newlineTok n =>
    .cont { st with pos := st.pos + n, lineno := st.lineno + n }
  | .simpleTok kind text =>
    .emit ⟨kind, .str text, st.lineno⟩ (st.advanceBy text.length)

/-- The scanning loop of `lexer.token()`, parametric in the rule matcher:
at end of input report `eof`; on a rule match run its handler, looping on a
silent continue; when no rule matches, run `t_error` (warn and skip one
character) and loop.  The fuel argument bounds the loop (each iteration
advances the position, so `input.length + 1` fuel always suffices). -/
def next_token (matchRule : LexState → Option MatchedRule) :
    LexState → Nat → LexOutcome
  | _, 0 => .fatal (.otherError "fuel exhausted")
  | st, fuel + 1 =>
    if st.input.length ≤ st.pos then .eof
    else
      match matchRule st with
      | some r =>
        match applyRule r st with
        | .cont st2 => next_token matchRule st2 fuel
        | o => o
      | none => next_token matchRule (t_error st) fuel

/-! ### Concrete instances used by the theorems below -/

/-- Whether a tokenizer result is a raised `CDLSyntaxError`. -/
def raisesSyntaxError (r : Except CDLError NCValue) : Bool :=
  match r with
  | .error e => e.isSyntax
  | .ok _ => false

/-- A record int variable over the unlimited dimension (current length 0)
and one fixed dimension of length 4. -/
def exRecVar : NCVar := ⟨"v", .int, ["time", "x"], [0, 4], []⟩

/-- Twelve int literals supplied to `exRecVar`. -/
def exRecArr : List NCValue := List.replicate 12 (.int 7)

/-- A character variable with dimensions (2, 3) and no fill attributes. -/
def exPadCharVar : NCVar := ⟨"c", .char, ["d", "n"], [2, 3], []⟩

/-- An int variable carrying a `missing_value` attribute but no
`_FillValue`. -/
def exMissingVar : NCVar := ⟨"v", .int, [], [], [("missing_value", .int 42)]⟩

/-- A character variable with last dimension of length 5. -/
def exCharVar : NCVar := ⟨"c", .char, ["d", "n"], [2, 5], []⟩

/-- A scalar int variable. -/
def exScalarVar : NCVar := ⟨"s", .int, [], [], []⟩

/-! ## Theorems for the claims -/

/-- C6: for every data statement targeting a scalar (zero-dimension)
variable with a non-empty literal list, exactly the first literal is
committed to the variable; the remaining literals do not influence the
result and no error is raised. -/
theorem c6_scalar_first_literal (ctx : ParserCtx) (var : NCVar) (v : NCValue)
    (rest : List NCValue) (h : var.ndim = 0) :
    write_var_data ctx var (v :: rest) = .ok (.scalar v) := by
  simp [write_var_data, h]

/-- Witness for C6: a scalar variable written with three literals commits
only the first; no error is raised. -/
theorem c6_scalar_first_literal_witness :
    write_var_data ⟨none, 0⟩ exScalarVar [.int 1, .int 2, .int 3] =
      .ok (.scalar (.int 1)) :=
  c6_scalar_first_literal ⟨none, 0⟩ exScalarVar (.int 1) [.int 2, .int 3] rfl

/-- C4: the lexed boundary literals 32767s, 127b and 2147483647 are accepted
with their exact values, and 32768s and 128b are rejected with
`CDLContentError`; but the out-of-range integer literal 2147483648, which
the claim says is rejected with `CDLContentError`, instead raises `NameError`
because `t_INT_CONST` formats its range-error message with the undefined
name `int_val`. -/
theorem c4_range_checks :
    (matchesShortConst "32767s" = true ∧
       t_SHORT_CONST "32767s" = .ok (.short 32767)) ∧
    (matchesShortConst "32768s" = true ∧
       t_SHORT_CONST "32768s" =
         .error (.contentError
           "Short constant is outside valid range (-32768 -> 32767): 32768")) ∧
    (matchesByteConst "127b" = true ∧ t_BYTE_CONST "127b" = .ok (.byte 127)) ∧
    (matchesByteConst "128b" = true ∧
       t_BYTE_CONST "128b" =
         .error (.contentError
           "Byte constant outside valid range (-128 -> 127): 128")) ∧
    (matchesIntConst "2147483647" = true ∧
       t_INT_CONST "2147483647" = .ok (.int 2147483647)) ∧
    (matchesIntConst "2147483648" = true ∧
       t_INT_CONST "2147483648" = .error (.nameError "name int_val is not defined")) := by
  exact ⟨⟨rfl, rfl⟩, ⟨rfl, rfl⟩, ⟨rfl, rfl⟩, ⟨rfl, rfl⟩, ⟨rfl, rfl⟩, ⟨rfl, rfl⟩⟩

/-- C2 (failing evaluation): a character variable of shape (2, 3) supplied
one string needs padding (1 < expected length 2), the default char fill
value is available, yet the write raises `TypeError`: Python 3 true
division made the expected length the float 2.0, and repeating the fill
list a float number of times fails, so no padding happens. -/
theorem c2_char_pad_typeerror :
    effective_fill exPadCharVar = .ok NC_FILL_CHAR ∧
    write_var_data ⟨none, 0⟩ exPadCharVar [.str "ab"] =
      .error (.typeError "cannot multiply sequence by non-int of type float") := by
  refine ⟨rfl, ?_⟩
  have h13 : ((1 : ℕ) : ℚ) < ((6 : ℤ) : ℚ) / ((3 : ℤ) : ℚ) := by norm_num
  simp only [write_var_data, charAdjustedLen, exPadCharVar, NCVar.ndim, NCVar.size,
    isRecvar, pyDiv, PyNum.val, pad_array, effective_fill, NCVar.getAttr,
    get_default_fill_value, NCType.dtypeChar]
  norm_num
  decide

/-- C5 (counterexample): the text ".f" matches the float-constant lexical
shape, its payload "." cannot be decoded by `float()`, and the tokenizer
fails with `CDLContentError` - not with `SyntaxError` as the claim states;
and the unparsable-literal path is not the only failure path of the
tokenizer - "32768s" matches the short shape, its payload decodes fine to
32768, yet the handler still fails (on the range check). -/
theorem c5_counterexample :
    (matchesFloatConst ".f" = true ∧
     pyFloat (dropSuffix1 ".f") = none ∧
     t_FLOAT_CONST ".f" = .error (.contentError "Bad float constant: .f") ∧
     raisesSyntaxError (t_FLOAT_CONST ".f") = false) ∧
    (matchesShortConst "32768s" = true ∧
     pyEvalInt (dropSuffix1 "32768s") = some 32768 ∧
     t_SHORT_CONST "32768s" =
       .error (.contentError
         "Short constant is outside valid range (-32768 -> 32767): 32768")) := by
  exact ⟨⟨rfl, rfl, rfl, rfl⟩, ⟨rfl, rfl, rfl⟩⟩

/-- C5 (amended): for every input text matching one of the numeric lexical
shapes (float, double, short, byte, int) whose payload cannot be decoded to
a value, the tokenizer fails with `CDLContentError`, never `SyntaxError`;
and unparsable literal text is not the only failure path of the token
handlers - an out-of-range decodable literal is rejected there as well. -/
theorem c5_amended :
    (∀ s : String, matchesFloatConst s = true → pyFloat (dropSuffix1 s) = none →
       t_FLOAT_CONST s = .error (.contentError ("Bad float constant: " ++ s)) ∧
       raisesSyntaxError (t_FLOAT_CONST s) = false) ∧
    (∀ s : String, matchesDoubleConst s = true → pyFloat (doubleConstText s) = none →
       t_DOUBLE_CONST s = .error (.contentError ("Bad double constant: " ++ s)) ∧
       raisesSyntaxError (t_DOUBLE_CONST s) = false) ∧
    (∀ s : String, matchesShortConst s = true → pyEvalInt (dropSuffix1 s) = none →
       t_SHORT_CONST s = .error (.contentError ("Bad short constant: " ++ s)) ∧
       raisesSyntaxError (t_SHORT_CONST s) = false) ∧
    (∀ s : String, matchesByteConst s = true → byteDecode s = none →
       t_BYTE_CONST s = .error (.contentError ("Bad byte constant: " ++ s)) ∧
       raisesSyntaxError (t_BYTE_CONST s) = false) ∧
    (∀ s : String, matchesIntConst s = true → pyEvalInt s = none →
       t_INT_CONST s = .error (.contentError ("Bad integer constant: " ++ s)) ∧
       raisesSyntaxError (t_INT_CONST s) = false) ∧
    (t_SHORT_CONST "32768s" =
       .error (.contentError
         "Short constant is outside valid range (-32768 -> 32767): 32768") ∧
     pyEvalInt (dropSuffix1 "32768s") = some 32768) := by
  refine ⟨?_, ?_, ?_, ?_, ?_, rfl, rfl⟩
  · intro s _ hdec
    simp [t_FLOAT_CONST, hdec, raisesSyntaxError, CDLError.isSyntax]
  · intro s _ hdec
    simp [t_DOUBLE_CONST, hdec, raisesSyntaxError, CDLError.isSyntax]
  · intro s _ hdec
    simp [t_SHORT_CONST, hdec, raisesSyntaxError, CDLError.isSyntax]
  · intro s _ hdec
    simp [t_BYTE_CONST, hdec, raisesSyntaxError, CDLError.isSyntax]
  · intro s _ hdec
    simp [t_INT_CONST, hdec, raisesSyntaxError, CDLError.isSyntax]

/-- Witness for the amended C5, one undecodable text per numeric shape:
".f" (float), "." (double), "0777s" (short - a leading-zero decimal is a
Python 3 SyntaxError under eval), the unknown escape byte form, and "0777"
(int). -/
theorem c5_amended_witness :
    t_FLOAT_CONST ".f" = .error (.contentError "Bad float constant: .f") ∧
    t_DOUBLE_CONST "." = .error (.contentError "Bad double constant: .") ∧
    t_SHORT_CONST "0777s" = .error (.contentError "Bad short constant: 0777s") ∧
    t_BYTE_CONST "'\\q'" = .error (.contentError ("Bad byte constant: " ++ "'\\q'")) ∧
    t_INT_CONST "0777" = .error (.contentError "Bad integer constant: 0777") := by
  exact ⟨(c5_amended.1 ".f" rfl rfl).1, (c5_amended.2.1 "." rfl rfl).1,
    (c5_amended.2.2.1 "0777s" rfl rfl).1,
    (c5_amended.2.2.2.1 "'\\q'" rfl rfl).1,
    (c5_amended.2.2.2.2.1 "0777" rfl rfl).1⟩

/-- C3 (counterexample): for a non-character variable carrying a
`missing_value` attribute and no `_FillValue`, padding's effective fill
value is the `missing_value` (42), but the fill placeholder resolves to the
per-type default (-2147483647): the two lookups are not the same, contrary
to the claim. -/
theorem c3_counterexample :
    p_const (some exMissingVar) (.str "_") = .ok ⟨.int (-2147483647), false⟩ ∧
    effective_fill exMissingVar = .ok (.int 42) ∧
    NCValue.int (-2147483647) ≠ NCValue.int 42 := by
  refine ⟨rfl, rfl, ?_⟩
  intro h
  cases h

/-- C3 (amended): a fill placeholder resolves, for a non-character current
variable, to the variable's `_FillValue` attribute if set and otherwise to
the per-type default fill value (the `missing_value` attribute is not
consulted); for a character-typed current variable, or no current variable,
no substitution is performed, a warning is logged, and the placeholder text
is used verbatim. -/
theorem c3_fill_placeholder (var : NCVar) :
    (var.dtype ≠ .char →
       (∀ fv, var.getAttr "_FillValue" = some fv →
          p_const (some var) (.str "_") = .ok ⟨fv, false⟩) ∧
       (var.getAttr "_FillValue" = none →
          ∃ fv, get_default_fill_value var.dtype.dtypeChar = .ok fv ∧
            p_const (some var) (.str "_") = .ok ⟨fv, false⟩)) ∧
    (var.dtype = .char → p_const (some var) (.str "_") = .ok ⟨.str "_", true⟩) ∧
    p_const (none : Option NCVar) (.str "_") = .ok ⟨.str "_", true⟩ := by
  refine ⟨fun hc => ⟨fun fv hfv => ?_, fun hnone => ?_⟩, fun hc => ?_, rfl⟩
  · simp [p_const, hc, hfv]
  · have : ∃ fv, get_default_fill_value var.dtype.dtypeChar = .ok fv := by
      cases h : var.dtype <;> simp_all [get_default_fill_value, NCType.dtypeChar]
    obtain ⟨fv, hfv⟩ := this
    exact ⟨fv, hfv, by simp [p_const, hc, hnone, hfv]⟩
  · simp [p_const, hc]

/-- Witness for the amended C3: an int variable with no fill attributes
resolves the placeholder to the default int fill value; a char variable
keeps the placeholder verbatim with a warning. -/
theorem c3_fill_placeholder_witness :
    p_const (some exScalarVar) (.str "_") = .ok ⟨NC_FILL_INT, false⟩ ∧
    p_const (some exCharVar) (.str "_") = .ok ⟨.str "_", true⟩ := by
  constructor
  · obtain ⟨fv, hfv, hp⟩ :=
      ((c3_fill_placeholder exScalarVar).1 (by simp [exScalarVar])).2 rfl
    have hv : fv = NC_FILL_INT := by
      have h2 : get_default_fill_value (NCType.dtypeChar NCType.int) = .ok NC_FILL_INT := rfl
      rw [show exScalarVar.dtype = NCType.int from rfl] at hfv
      rw [h2] at hfv
      exact (Except.ok.injEq _ _ ▸ hfv).symm
    rw [hv] at hp
    exact hp
  · exact (c3_fill_placeholder exCharVar).2.1 rfl

/-- Whether a length specifier is a fixed length whose `int()` truncation is
non-positive. -/
def DimLenSpec.fixedNonpos : DimLenSpec → Prop
  | .intConst v => v ≤ 0
  | .doubleConst q => pyTrunc q ≤ 0
  | .unlimited => False

instance : DecidablePred DimLenSpec.fixedNonpos := by
  intro s
  cases s <;> simp [DimLenSpec.fixedNonpos] <;> infer_instance

/-- The length a successful dimension declaration registers. -/
def DimLenSpec.regLength : DimLenSpec → Nat
  | .intConst v => v.toNat
  | .doubleConst q => (pyTrunc q).toNat
  | .unlimited => 0

/-- C7: a dimension declaration fails - always with `CDLContentError` -
exactly when the name duplicates an already-declared dimension, the fixed
length (after `int()` truncation) is non-positive, or it declares a second
unlimited dimension; otherwise it registers the dimension with its length
(zero for the unlimited dimension, whose name is recorded). -/
theorem c7_dimdecl (st : DimState) (name : String) (spec : DimLenSpec) :
    ((∃ m, p_dimdecl st name spec = .error (.contentError m)) ↔
       (st.hasDim name = true ∨ spec.fixedNonpos ∨
        (spec = .unlimited ∧ st.recDimname.isSome = true))) ∧
    (∀ e, p_dimdecl st name spec = .error e → e.isContent = true) ∧
    (st.hasDim name = false → ¬spec.fixedNonpos →
      (spec ≠ .unlimited →
         p_dimdecl st name spec =
           .ok { st with dims := st.dims ++ [(name, spec.regLength)] }) ∧
      (spec = .unlimited → st.recDimname = none →
         p_dimdecl st name spec = .ok ⟨st.dims ++ [(name, 0)], some name⟩)) := by
  refine ⟨⟨?_, ?_⟩, ?_, ?_⟩
  · rintro ⟨m, hm⟩
    by_cases hd : st.hasDim name = true
    · exact Or.inl hd
    · cases spec with
      | intConst v =>
        by_cases hv : v ≤ 0
        · exact Or.inr (Or.inl hv)
        · simp [p_dimdecl, p_dimd, hd, hv] at hm
      | doubleConst q =>
        by_cases hv : pyTrunc q ≤ 0
        · exact Or.inr (Or.inl hv)
        · simp [p_dimdecl, p_dimd, hd, hv] at hm
      | unlimited =>
        by_cases hr : st.recDimname.isSome = true
        · exact Or.inr (Or.inr ⟨rfl, hr⟩)
        · simp [p_dimdecl, p_dimd, hd, hr] at hm
  · intro h
    rcases h with hd | hfix | ⟨hu, hr⟩
    · simp [p_dimdecl, p_dimd, hd]
    · cases spec with
      | intConst v =>
        simp only [DimLenSpec.fixedNonpos] at hfix
        by_cases hd : st.hasDim name = true <;> simp [p_dimdecl, p_dimd, hd, hfix]
      | doubleConst q =>
        simp only [DimLenSpec.fixedNonpos] at hfix
        by_cases hd : st.hasDim name = true <;> simp [p_dimdecl, p_dimd, hd, hfix]
      | unlimited => exact absurd hfix (by simp [DimLenSpec.fixedNonpos])
    · subst hu
      by_cases hd : st.hasDim name = true <;> simp [p_dimdecl, p_dimd, hd, hr]
  · intro e he
    by_cases hd : st.hasDim name = true
    · simp only [p_dimdecl, p_dimd, hd, if_true] at he
      cases he
      rfl
    · cases spec with
      | intConst v =>
        by_cases hv : v ≤ 0
        · simp only [p_dimdecl, p_dimd, hd, if_false, hv, if_true] at he
          simp [hd] at he
          cases he
          rfl
        · simp [p_dimdecl, p_dimd, hd, hv] at he
      | doubleConst q =>
        by_cases hv : pyTrunc q ≤ 0
        · simp only [p_dimdecl, p_dimd] at he
          simp [hd, hv] at he
          cases he
          rfl
        · simp [p_dimdecl, p_dimd, hd, hv] at he
      | unlimited =>
        by_cases hr : st.recDimname.isSome = true
        · simp only [p_dimdecl, p_dimd] at he
          simp [hd, hr] at he
          cases he
          rfl
        · simp [p_dimdecl, p_dimd, hd, hr] at he
  · intro hd hfix
    constructor
    · intro hne
      cases spec with
      | intConst v =>
        simp only [DimLenSpec.fixedNonpos] at hfix
        simp [p_dimdecl, p_dimd, hd, hfix, DimLenSpec.regLength]
      | doubleConst q =>
        simp only [DimLenSpec.fixedNonpos] at hfix
        simp [p_dimdecl, p_dimd, hd, hfix, DimLenSpec.regLength]
      | unlimited => exact absurd rfl hne
    · intro hu hr
      subst hu
      simp [p_dimdecl, p_dimd, hd, hr]

/-- Witness for C7: redeclaring `x` fails, a second unlimited dimension
fails, and a fresh positive declaration registers the dimension. -/
theorem c7_dimdecl_witness :
    (∃ m, p_dimdecl ⟨[("x", 3)], none⟩ "x" (.intConst 5) = .error (.contentError m)) ∧
    (∃ m, p_dimdecl ⟨[("x", 3)], some "t"⟩ "y" .unlimited = .error (.contentError m)) ∧
    p_dimdecl ⟨[], none⟩ "d" (.intConst 4) = .ok ⟨[("d", 4)], none⟩ := by
  refine ⟨?_, ?_, ?_⟩
  · exact (c7_dimdecl ⟨[("x", 3)], none⟩ "x" (.intConst 5)).1.mpr (Or.inl rfl)
  · exact (c7_dimdecl ⟨[("x", 3)], some "t"⟩ "y" .unlimited).1.mpr
      (Or.inr (Or.inr ⟨rfl, rfl⟩))
  · exact ((c7_dimdecl ⟨[], none⟩ "d" (.intConst 4)).2.2 rfl
      (by decide)).1 (by decide)

/-- C8: for a character variable, each supplied value is packed into a
fixed-width row whose width is the variable's last dimension length: every
packed row has exactly that length, a string not longer than the width is
padded with NUL characters, and (with the element counts consistent) the
committed buffer of `put_char_data` is exactly the packed rows; in
particular with last dimension length 5 the strings "ab" and "cdefg" pack to
"ab" plus three NULs and to "cdefg" itself. -/
theorem c8_char_packing (var : NCVar) (arr : List NCValue) (w : ℕ)
    (hnd : 0 < var.ndim) (hw : var.shape.getLastD 1 = w)
    (hsz : var.shape.prod = arr.length * w) :
    (∀ cs ∈ str_list_to_char_arr arr w, cs.length = w) ∧
    (∀ s : String, s.length ≤ w →
       str_list_to_char_arr [.str s] w =
         [s.data ++ List.replicate (w - s.length) '\x00']) ∧
    put_char_data var arr (.pint 0) =
      .ok (.charArr (str_list_to_char_arr arr w)
        (var.shape.map (fun (n : ℕ) => (n : ℤ)))) ∧
    str_list_to_char_arr [.str "ab", .str "cdefg"] 5 =
      [['a', 'b', '\x00', '\x00', '\x00'], ['c', 'd', 'e', 'f', 'g']] := by
  refine ⟨?_, ?_, ?_, rfl⟩
  · intro cs hcs
    simp only [str_list_to_char_arr, List.mem_map] at hcs
    obtain ⟨v, -, rfl⟩ := hcs
    simp only [List.length_append, List.length_take, List.length_replicate]
    omega
  · intro s hs
    have hlen : s.data.length = s.length := rfl
    simp [str_list_to_char_arr, pyStrOf, List.take_of_length_le (hlen ▸ hs)]
  · have hml : (if 0 < var.ndim then var.shape.getLastD 1 else 1) = w := by
      rw [if_pos hnd, hw]
    have hsi : ∀ l : List ℕ,
        shapeToInts (l.map (fun (n : ℕ) => PyNum.pint (n : ℤ))) =
          some (l.map (fun (n : ℕ) => (n : ℤ))) := by
      intro l
      induction l with
      | nil => rfl
      | cons a t ih => simp [shapeToInts, ih]
    have hprod : (var.shape.map (fun (n : ℕ) => (n : ℤ))).prod =
        (arr.length : ℤ) * (w : ℤ) := by
      have h := congrArg (fun n : ℕ => (n : ℤ)) hsz
      push_cast at h
      exact h
    simp only [put_char_data, PyNum.val, hml, Int.cast_zero, ne_eq,
      not_true_eq_false, if_false, hsi]
    norm_num [hprod]

/-- Witness for C8: the character variable with last dimension length 5 fed
"ab" and "cdefg" commits the rows "ab" plus three NULs and "cdefg", each of
width 5. -/
theorem c8_char_packing_witness :
    put_char_data exCharVar [.str "ab", .str "cdefg"] (.pint 0) =
      .ok (.charArr [['a', 'b', '\x00', '\x00', '\x00'], ['c', 'd', 'e', 'f', 'g']]
        [(2 : ℤ), (5 : ℤ)]) := by
  have h := (c8_char_packing exCharVar [.str "ab", .str "cdefg"] 5
    (by decide) rfl (by decide)).2.2.1
  rw [h]
  norm_num [exCharVar, str_list_to_char_arr, pyStrOf]
  decide

/-- C9: when no lexer rule matches at the current position (an unrecognized
character), the scanner runs `t_error`, which skips exactly one character
and logs a warning, and scanning continues with no exception raised at that
step; and this is the only non-fatal error path - the handler of every
matched rule either emits a token, continues silently without adding a
warning (comments and newlines), or raises a fatal error. -/
theorem c9_lex_noise (m : LexState → Option MatchedRule) (st : LexState)
    (fuel : ℕ) (hpos : st.pos < st.input.length) (hm : m st = none) :
    next_token m st (fuel + 1) = next_token m (t_error st) fuel ∧
    t_error st = { st with pos := st.pos + 1, warnings := st.warnings + 1 } ∧
    (∀ (r : MatchedRule) (s : LexState),
       (∃ t s2, applyRule r s = .emit t s2) ∨ (∃ s2, applyRule r s = .cont s2) ∨
       (∃ e, applyRule r s = .fatal e)) ∧
    (∀ (r : MatchedRule) (s s2 : LexState),
       applyRule r s = .cont s2 → s2.warnings = s.warnings) := by
  refine ⟨?_, rfl, ?_, ?_⟩
  · rw [next_token, if_neg (by omega), hm]
  · intro r s
    cases r with
    | netcdfTok text =>
      cases h : t_NETCDF text with
      | ok v =>
        left
        simp only [applyRule, h]
        exact ⟨_, _, rfl⟩
      | error e =>
        right; right
        simp only [applyRule, h]
        exact ⟨_, rfl⟩
    | sectionTok text => exact Or.inl ⟨_, _, rfl⟩
    | termstringTok text =>
      cases h : t_TERMSTRING text with
      | ok v =>
        left
        simp only [applyRule, h]
        exact ⟨_, _, rfl⟩
      | error e =>
        right; right
        simp only [applyRule, h]
        exact ⟨_, rfl⟩
    | commentTok text => exact Or.inr (Or.inl ⟨_, rfl⟩)
    | identTok text => exact Or.inl ⟨_, _, rfl⟩
    | floatTok text =>
      cases h : t_FLOAT_CONST text with
      | ok v =>
        left
        simp only [applyRule, h]
        exact ⟨_, _, rfl⟩
      | error e =>
        right; right
        simp only [applyRule, h]
        exact ⟨_, rfl⟩
    | doubleTok text =>
      cases h : t_DOUBLE_CONST text with
      | ok v =>
        left
        simp only [applyRule, h]
        exact ⟨_, _, rfl⟩
      | error e =>
        right; right
        simp only [applyRule, h]
        exact ⟨_, rfl⟩
    | shortTok text =>
      cases h : t_SHORT_CONST text with
      | ok v =>
        left
        simp only [applyRule, h]
        exact ⟨_, _, rfl⟩
      | error e =>
        right; right
        simp only [applyRule, h]
        exact ⟨_, rfl⟩
    | byteTok text =>
      cases h : t_BYTE_CONST text with
      | ok v =>
        left
        simp only [applyRule, h]
        exact ⟨_, _, rfl⟩
      | error e =>
        right; right
        simp only [applyRule, h]
        exact ⟨_, rfl⟩
    | intTok text =>
      cases h : t_INT_CONST text with
      | ok v =>
        left
        simp only [applyRule, h]
        exact ⟨_, _, rfl⟩
      | error e =>
        right; right
        simp only [applyRule, h]
        exact ⟨_, rfl⟩
    | newlineTok n => exact Or.inr (Or.inl ⟨_, rfl⟩)
    | simpleTok kind text => exact Or.inl ⟨_, _, rfl⟩
  · intro r s s2 hc
    cases r with
    | netcdfTok text =>
      cases h : t_NETCDF text <;> simp [applyRule, h] at hc
    | sectionTok text => simp [applyRule] at hc
    | termstringTok text =>
      cases h : t_TERMSTRING text <;> simp [applyRule, h] at hc
    | commentTok text =>
      simp only [applyRule, LexOutcome.cont.injEq] at hc
      subst hc
      rfl
    | identTok text => simp [applyRule] at hc
    | floatTok text =>
      cases h : t_FLOAT_CONST text <;> simp [applyRule, h] at hc
    | doubleTok text =>
      cases h : t_DOUBLE_CONST text <;> simp [applyRule, h] at hc
    | shortTok text =>
      cases h : t_SHORT_CONST text <;> simp [applyRule, h] at hc
    | byteTok text =>
      cases h : t_BYTE_CONST text <;> simp [applyRule, h] at hc
    | intTok text =>
      cases h : t_INT_CONST text <;> simp [applyRule, h] at hc
    | newlineTok n =>
      simp only [applyRule, LexOutcome.cont.injEq] at hc
      subst hc
      rfl
    | simpleTok kind text => simp [applyRule] at hc

/-- Witness for C9: with a matcher that recognizes nothing, scanning a
one-character input skips it with one warning and then reaches end of input
without raising. -/
theorem c9_lex_noise_witness :
    next_token (fun _ => none) ⟨['?'], 0, 1, 0⟩ 2 = .eof ∧
    t_error ⟨['?'], 0, 1, 0⟩ = ⟨['?'], 1, 1, 1⟩ := by
  have h := c9_lex_noise (fun _ => none) ⟨['?'], 0, 1, 0⟩ 1 (by decide) rfl
  exact ⟨by rw [h.1]; rfl, h.2.1⟩

/-- C10: an attribute value list with exactly one literal is stored as that
bare element and a list of two or more literals is stored as the list
itself, for global attributes and for variable attributes alike (a
`_FillValue` attribute stores the numpy cast of the scalarised value). -/
theorem c10_attr_scalarize (ds : NCDataset) :
    (∀ v : NCValue, attScalarize [v] = v) ∧
    (∀ vs : List NCValue, 2 ≤ vs.length → attScalarize vs = .vlist vs) ∧
    (∀ (gname : String) (vals : List NCValue),
       ds.ncattrs.any (fun p => p.1 = gname) = false →
       set_attribute ds (":" ++ gname) vals =
         .ok { ds with ncattrs := ds.ncattrs ++ [(gname, attScalarize vals)] }) ∧
    (∀ (attid varname attname : String) (var : NCVar) (vals : List NCValue),
       attid.data.head? ≠ some ':' →
       (splitOnColon attid.data).map String.mk = [varname, attname] →
       ds.findVar varname = some var →
       var.ncattrs.any (fun p => p.1 = attname) = false →
       attname ≠ "_FillValue" →
       set_attribute ds attid vals =
         .ok (ds.setVarAttr varname attname (attScalarize vals))) ∧
    (∀ (attid varname : String) (var : NCVar) (vals : List NCValue) (w : NCValue),
       attid.data.head? ≠ some ':' →
       (splitOnColon attid.data).map String.mk = [varname, "_FillValue"] →
       ds.findVar varname = some var →
       var.ncattrs.any (fun p => p.1 = "_FillValue") = false →
       npCastVal var.dtype (attScalarize vals) = some w →
       set_attribute ds attid vals =
         .ok (ds.setVarAttr varname "_FillValue" w)) := by
  refine ⟨fun v => rfl, ?_, ?_, ?_, ?_⟩
  · intro vs hlen
    match vs, hlen with
    | v1 :: v2 :: rest, _ => rfl
  · intro gname vals hdup
    have hdata : (":" ++ gname).data = ':' :: gname.data := rfl
    have hmk : String.mk gname.data = gname := rfl
    simp only [set_attribute, hdata, hmk, hdup]
    rfl
  · intro attid varname attname var vals hh hsplit hfind hdup hfv
    simp only [set_attribute]
    split
    · rename_i rest heq
      exact absurd (by rw [heq]; rfl : attid.data.head? = some ':') hh
    · simp only [hsplit, hfind, hdup, Bool.false_eq_true, if_false]
      rw [if_neg hfv]
  · intro attid varname var vals w hh hsplit hfind hdup hcast
    simp only [set_attribute]
    split
    · rename_i rest heq
      exact absurd (by rw [heq]; rfl : attid.data.head? = some ':') hh
    · simp only [hsplit, hfind, hdup, Bool.false_eq_true, if_false, ite_true]
      rw [hcast]

/-- Witness for C10: a single-literal global attribute is stored bare, a
two-literal global attribute is stored as the list, and a single-literal
variable attribute is stored bare. -/
theorem c10_attr_scalarize_witness :
    set_attribute ⟨[], []⟩ ":title" [.str "h"] =
      .ok ⟨[("title", .str "h")], []⟩ ∧
    set_attribute ⟨[], []⟩ ":gs" [.int 1, .int 2] =
      .ok ⟨[("gs", .vlist [.int 1, .int 2])], []⟩ ∧
    set_attribute ⟨[], [exScalarVar]⟩ "s:foo" [.int 9] =
      .ok ⟨[], [⟨"s", .int, [], [], [("foo", .int 9)]⟩]⟩ := by
  refine ⟨?_, ?_, ?_⟩
  · exact (c10_attr_scalarize ⟨[], []⟩).2.2.1 "title" [.str "h"] rfl
  · exact (c10_attr_scalarize ⟨[], []⟩).2.2.1 "gs" [.int 1, .int 2] rfl
  · exact (c10_attr_scalarize ⟨[], [exScalarVar]⟩).2.2.2.1 "s:foo" "s" "foo"
      exScalarVar [.int 9] (by decide) rfl rfl rfl (by decide)

/-- C1: on the claim's own example - a record int variable over the
unlimited dimension (current length 0) and one fixed dimension of length 4,
fed 12 literals - the lengths are inferred exactly as the claim states
(varlen = 12 = the supplied list's length, reclen = 4 = the product of the
other dimension lengths), but no records are committed: the leading shape
entry `len(arr) / reclen` is the Python 3 float 3.0, numpy's shape
assignment rejects the float entry with `TypeError`, and `write_var_data`
rewraps it as `CDLContentError` - where the claim says 3 records are
committed. -/
theorem c1_record_commit_fails :
    recvarLengths 0 (.pint 0) 12 exRecVar = .ok (.pint 12, .pint 4) ∧
    write_var_data ⟨some "time", 0⟩ exRecVar exRecArr =
      .error (.contentError
        "Error attempting to write data array for variable v") := by
  constructor
  · rfl
  · have hq : ((12 : ℤ) : ℚ) / ((4 : ℤ) : ℚ) = ((3 : ℤ) : ℚ) := by norm_num
    have hfc : recFactorCheck (.pint 12) (.pint 4) = .ok () := by
      unfold recFactorCheck pyMod
      rw [if_neg (by norm_num [PyNum.val])]
      simp only [PyNum.val, hq, Int.floor_intCast]
      norm_num
    have hpn : put_numeric_data exRecVar exRecArr (.pint 4) =
        .error (.typeError "float object cannot be interpreted as an integer") := by
      simp only [put_numeric_data, PyNum.val]
      rw [if_pos (by norm_num : ((4 : ℤ) : ℚ) ≠ 0)]
      rfl
    unfold write_var_data
    rw [if_neg (by decide : ¬(exRecVar.ndim = 0))]
    rw [show charAdjustedLen exRecVar = .ok (.pint ((exRecVar.size : ℕ) : ℤ)) from
      by decide]
    rw [show isRecvar ⟨some "time", 0⟩ exRecVar = true from rfl]
    simp only [if_true]
    rw [show recvarLengths (ParserCtx.mk (some "time") 0).recDimLen
        (.pint ((exRecVar.size : ℕ) : ℤ)) exRecArr.length exRecVar =
        .ok (.pint 12, .pint 4) from by decide]
    simp only [hfc]
    rw [if_neg (by norm_num [PyNum.val, exRecArr])]
    simp only [show (exRecVar.dtype = NCType.char) = False from by simp [exRecVar],
      if_false]
    rw [hpn]
    decide

end CDL
